import Mathlib

/-!
# Verification of the TuningMiddlewareHost MIDI re-tuning engine

Shallow embedding of `TuningEngine` (Source/TuningEngine.cpp / .h) and of the
persistence layout of `TuningMiddlewareHostProcessor`
(Source/PluginProcessor.cpp).  C++ `float` values are modelled as rationals
(`ℚ`); `int` as `ℤ`; the `static_cast<int>(float)` truncation toward zero is
`truncQ`.  MIDI data bytes (note numbers, velocities) are 7-bit values,
modelled as `Fin 128`, matching what `juce::MidiMessage::getNoteNumber` /
`getVelocity` can return.  A `juce::MidiBuffer` is a list of events in
timestamp order; `MidiBuffer.addEvent` at non-decreasing sample positions
appends, so the output buffer is modelled as an appended list.
-/

/-- Truncation of a rational toward zero, the semantics of C++
`static_cast<int>` applied to a (finite, in-range) floating-point value. -/
def truncQ (q : ℚ) : ℤ :=
  if 0 ≤ q then ⌊q⌋ else ⌈q⌉

/-- Model of `juce::jlimit (lowerLimit, upperLimit, value)`:
`value < lower ? lower : (upper < value ? upper : value)`. -/
def jlimit {α : Type} [LinearOrder α] (lo hi v : α) : α :=
  if v < lo then lo else if hi < v then hi else v

/-- Embedding of `TuningEngine::ActiveNote` (TuningEngine.h): per-(channel, note)
record of an in-flight note; `originalNote = -1` is the empty sentinel. -/
structure ActiveNote where
  originalNote : ℤ
  outputNote : ℤ
  pitchBend : ℤ
deriving DecidableEq, Repr

/-- The default member initializers of `ActiveNote`:
`{originalNote = -1, outputNote = -1, pitchBend = 8192}`. -/
def ActiveNote.default : ActiveNote :=
  { originalNote := -1, outputNote := -1, pitchBend := 8192 }

/-- A `juce::MidiMessage`, restricted to the shapes `processBlock`
distinguishes.  `other` stands for every other message kind, tagged so that
distinct messages stay distinct under pass-through; its `channel` is what
`getChannel` returns (`0` for non-channel messages). -/
inductive MidiMessage where
  | noteOn (channel : ℕ) (note : Fin 128) (velocity : Fin 128)
  | noteOff (channel : ℕ) (note : Fin 128) (velocity : Fin 128)
  | pitchWheel (channel : ℕ) (value : ℕ)
  | other (channel : ℕ) (payload : ℕ)
deriving DecidableEq, Repr

namespace MidiMessage

/-- Model of `juce::MidiMessage::getChannel`: 1–16 for channel messages as built by
the JUCE factories, 0 when the message has no channel. -/
def getChannel : MidiMessage → ℕ
  | noteOn ch _ _ => ch
  | noteOff ch _ _ => ch
  | pitchWheel ch _ => ch
  | other ch _ => ch

/-- Model of `juce::MidiMessage::isNoteOn()` with the default
`returnTrueForVelocity0 = false`: a note-on status byte with velocity 0 is
not a note-on. -/
def isNoteOn : MidiMessage → Bool
  | noteOn _ _ v => v.val != 0
  | _ => false

/-- Model of `juce::MidiMessage::isNoteOff()` with the default
`returnTrueForNoteOnVelocity0 = true`: a note-on status byte with
velocity 0 counts as a note-off. -/
def isNoteOff : MidiMessage → Bool
  | noteOff _ _ _ => true
  | noteOn _ _ v => v.val == 0
  | _ => false

/-- Model of `juce::MidiMessage::getNoteNumber` (only read on note messages). -/
def getNoteNumber : MidiMessage → Fin 128
  | noteOn _ n _ => n
  | noteOff _ n _ => n
  | _ => 0

/-- Model of `juce::MidiMessage::getVelocity` (0 on non-note messages). -/
def getVelocity : MidiMessage → Fin 128
  | noteOn _ _ v => v
  | noteOff _ _ v => v
  | _ => 0

end MidiMessage

/-- One entry of a `juce::MidiBuffer`: a message with its sample position
(`metadata.samplePosition`, a C++ `int`). -/
structure MidiEvent where
  samplePosition : ℤ
  message : MidiMessage
deriving DecidableEq, Repr

/-- The state of a `TuningEngine` (TuningEngine.h): the 128-entry cents
table, the pitch-bend range in semitones, and the 16×128 active-note
records. -/
structure TuningEngine where
  tuningTable : Fin 128 → ℚ
  pitchBendRange : ℚ
  activeNotes : Fin 16 → Fin 128 → ActiveNote

namespace TuningEngine

/-- Embedding of `TuningEngine::TuningEngine()` together with the member initializers:
table all zeros (12TET), `pitchBendRange = 48.0f`, all active-note slots
empty. -/
def init : TuningEngine :=
  { tuningTable := fun _ => 0
  , pitchBendRange := 48
  , activeNotes := fun _ _ => ActiveNote.default }

/-- Embedding of `TuningEngine::setTuningTable`. -/
def setTuningTable (eng : TuningEngine) (cents : Fin 128 → ℚ) : TuningEngine :=
  { eng with tuningTable := cents }

/-- Embedding of `TuningEngine::setPitchBendRange`: clamps to [1, 96] via `jlimit`. -/
def setPitchBendRange (eng : TuningEngine) (semitones : ℚ) : TuningEngine :=
  { eng with pitchBendRange := jlimit 1 96 semitones }

/-- Embedding of `TuningEngine::calculatePitchBend`, parameterized by the engine's
`pitchBendRange` field. -/
def calculatePitchBend (pitchBendRange : ℚ) (cents : ℚ) : ℤ :=
  if pitchBendRange ≤ 0 then 8192
  else
    let rangeCents := pitchBendRange * 100
    let normalized := cents / rangeCents
    jlimit 0 16383 (truncQ (8192 + normalized * 8192))

/-- Embedding of `TuningEngine::reset`: clears all 16×128 active-note slots. -/
def reset (eng : TuningEngine) : TuningEngine :=
  { eng with activeNotes := fun _ _ => ActiveNote.default }

/-- The note argument `juce::MidiMessage::noteOff` receives as a C++ `int`
(`activeNote.outputNote`), narrowed to the 7-bit data byte it is stored in.
Under the engine's invariant `outputNote` is always in [0, 127], where this
is the identity. -/
def outputNoteByte (n : ℤ) : Fin 128 :=
  ⟨n.toNat % 128, Nat.mod_lt _ (by norm_num)⟩

/-- The body of the per-event loop of `TuningEngine::processBlock`:
returns the updated engine and the events appended to `processedMidi`. -/
def processEvent (eng : TuningEngine) (ev : MidiEvent) :
    TuningEngine × List MidiEvent :=
  let message := ev.message
  let samplePosition := ev.samplePosition
  let channel : ℤ := (message.getChannel : ℤ) - 1
  if h : channel < 0 ∨ 16 ≤ channel then
    (eng, [ev])
  else
    let ch : Fin 16 := ⟨channel.toNat, by
      rcases not_or.mp h with ⟨h0, h16⟩
      omega⟩
    if message.isNoteOn then
      let note := message.getNoteNumber
      let velocity := message.getVelocity
      let cents := eng.tuningTable note
      let pitchBend := calculatePitchBend eng.pitchBendRange cents
      let eng' := { eng with
        activeNotes := Function.update eng.activeNotes ch
          (Function.update (eng.activeNotes ch) note
            { originalNote := (note : ℤ), outputNote := (note : ℤ)
            , pitchBend := pitchBend }) }
      (eng',
        [ { samplePosition := samplePosition
          , message := .pitchWheel (ch.val + 1) pitchBend.toNat }
        , { samplePosition := samplePosition
          , message := .noteOn (ch.val + 1) note velocity } ])
    else if message.isNoteOff then
      let note := message.getNoteNumber
      let velocity := message.getVelocity
      let activeNote := eng.activeNotes ch note
      if 0 ≤ activeNote.originalNote then
        let eng' := { eng with
          activeNotes := Function.update eng.activeNotes ch
            (Function.update (eng.activeNotes ch) note ActiveNote.default) }
        (eng',
          [ { samplePosition := samplePosition
            , message := .noteOff (ch.val + 1)
                (outputNoteByte activeNote.outputNote) velocity } ])
      else
        (eng, [ev])
    else
      (eng, [ev])

/-- Embedding of `TuningEngine::processBlock`: folds the loop body over the buffer in
timestamp order; the produced buffer replaces the input (`swapWith`). -/
def processBlock (eng : TuningEngine) (midiMessages : List MidiEvent) :
    TuningEngine × List MidiEvent :=
  midiMessages.foldl
    (fun acc ev =>
      let step := processEvent acc.1 ev
      (step.1, acc.2 ++ step.2))
    (eng, [])

end TuningEngine

/-- Embedding of `TuningMiddlewareHostProcessor::getStateInformation`: the persisted
state as the sequence of 32-bit float words written to the stream — 128
table entries in note order, then the pitch-bend range. -/
def getStateInformation (eng : TuningEngine) : List ℚ :=
  (List.ofFn fun i => eng.tuningTable i) ++ [eng.pitchBendRange]

/-- Embedding of `TuningMiddlewareHostProcessor::setStateInformation`: reads 128 floats
into the table, then one float passed to `setPitchBendRange` (reads past
the end of the stream return 0, as `juce::MemoryInputStream::readFloat`
does). -/
def setStateInformation (eng : TuningEngine) (data : List ℚ) : TuningEngine :=
  (eng.setTuningTable fun i => data.getD i.val 0).setPitchBendRange
    (data.getD 128 0)

/-- The pitch-bend mapping as §4.1 of the specification words it,
independently of the engine: center 8192 for a non-positive range,
otherwise `clamp(truncate(8192 + (cents / (range * 100)) * 8192), 0,
16383)`, with the clamp spelled as `max`/`min`. -/
def computeBendSpec (bendRangeSemitones cents : ℚ) : ℤ :=
  if bendRangeSemitones ≤ 0 then 8192
  else
    max 0 (min 16383 (truncQ (8192 + cents / (bendRangeSemitones * 100) * 8192)))

/-- Every entry point through which the engine's state can be mutated:
the four public `TuningEngine` methods plus the processor's
`setStateInformation`. -/
inductive EngineOp where
  | setTuningTable (cents : Fin 128 → ℚ)
  | setPitchBendRange (semitones : ℚ)
  | processBlock (midiMessages : List MidiEvent)
  | reset
  | setStateInformation (data : List ℚ)

/-- Dispatch one mutation to the engine. -/
def applyOp (eng : TuningEngine) : EngineOp → TuningEngine
  | .setTuningTable cents => eng.setTuningTable cents
  | .setPitchBendRange s => eng.setPitchBendRange s
  | .processBlock evs => (eng.processBlock evs).1
  | .reset => eng.reset
  | .setStateInformation data => setStateInformation eng data

/-- The engine state after a freshly constructed engine has served an
arbitrary sequence of calls. -/
def runOps (ops : List EngineOp) : TuningEngine :=
  ops.foldl applyOp TuningEngine.init

/-- The concrete scenario of the spec's "Ordering" property: table holding
100 cents at note 60 (0 elsewhere), pitch-bend range 48 semitones, no
active notes. -/
def engScenario : TuningEngine :=
  { tuningTable := fun n => if n.val = 60 then 100 else 0
  , pitchBendRange := 48
  , activeNotes := fun _ _ => ActiveNote.default }

/-- A fresh engine whose (channel 1, note 60) slot holds an active record,
as established by a prior note-on for note 60 with table value 100 cents
and range 48. -/
def engTracked : TuningEngine :=
  { TuningEngine.init with
      activeNotes := Function.update TuningEngine.init.activeNotes 0
        (Function.update (TuningEngine.init.activeNotes 0) 60
          { originalNote := 60, outputNote := 60, pitchBend := 8362 }) }

theorem jlimit_eq_max_min {α : Type} [LinearOrder α] (lo hi v : α)
    (h : lo ≤ hi) : jlimit lo hi v = max lo (min hi v) := by
  unfold jlimit
  split_ifs with h1 h2
  · rw [min_eq_right (le_of_lt (lt_of_lt_of_le h1 h)), max_eq_left h1.le]
  · rw [min_eq_left h2.le, max_eq_right h]
  · rw [min_eq_right (not_lt.mp h2), max_eq_right (not_lt.mp h1)]

theorem jlimit_mem {α : Type} [LinearOrder α] {lo hi : α} (v : α)
    (h : lo ≤ hi) : lo ≤ jlimit lo hi v ∧ jlimit lo hi v ≤ hi := by
  unfold jlimit
  split_ifs with h1 h2
  · exact ⟨le_refl _, h⟩
  · exact ⟨h, le_refl _⟩
  · exact ⟨not_lt.mp h1, not_lt.mp h2⟩

theorem jlimit_monotone {α : Type} [LinearOrder α] {lo hi v w : α}
    (h : lo ≤ hi) (hvw : v ≤ w) : jlimit lo hi v ≤ jlimit lo hi w := by
  rw [jlimit_eq_max_min _ _ _ h, jlimit_eq_max_min _ _ _ h]
  exact max_le_max (le_refl _) (min_le_min (le_refl _) hvw)

theorem truncQ_le_truncQ {a b : ℚ} (hab : a ≤ b) : truncQ a ≤ truncQ b := by
  unfold truncQ
  split_ifs with h1 h2 h3
  · exact Int.floor_le_floor hab
  · exact absurd (h1.trans hab) h2
  · exact le_trans (Int.ceil_le.mpr (by exact_mod_cast le_of_lt (not_le.mp h1)))
      (Int.le_floor.mpr (by exact_mod_cast h3))
  · exact Int.ceil_le_ceil hab

namespace TuningEngine

theorem outputNoteByte_coe (n : Fin 128) : outputNoteByte (n : ℤ) = n := by
  apply Fin.ext
  simp [outputNoteByte, Nat.mod_eq_of_lt n.isLt]

theorem processEvent_noteOn_eq (eng : TuningEngine) (ch : Fin 16)
    (note vel : Fin 128) (ts : ℤ) (hv : vel.val ≠ 0) :
    processEvent eng ⟨ts, .noteOn (ch.val + 1) note vel⟩ =
      ({ eng with
          activeNotes := Function.update eng.activeNotes ch
            (Function.update (eng.activeNotes ch) note
              { originalNote := (note : ℤ), outputNote := (note : ℤ)
              , pitchBend := calculatePitchBend eng.pitchBendRange (eng.tuningTable note) }) },
       [ ⟨ts, .pitchWheel (ch.val + 1)
           (calculatePitchBend eng.pitchBendRange (eng.tuningTable note)).toNat⟩
       , ⟨ts, .noteOn (ch.val + 1) note vel⟩ ]) := by
  have hch16 := ch.isLt
  rw [processEvent]
  simp only [MidiMessage.getChannel, MidiMessage.isNoteOn, MidiMessage.isNoteOff,
    MidiMessage.getNoteNumber, MidiMessage.getVelocity]
  rw [dif_neg (by push_cast; omega)]
  have hfin : ∀ (h : ((((ch.val + 1 : ℕ) : ℤ) - 1)).toNat < 16),
      (⟨((((ch.val + 1 : ℕ) : ℤ) - 1)).toNat, h⟩ : Fin 16) = ch := by
    intro h; apply Fin.ext; push_cast; omega
  simp only [hfin]
  simp [hv]

theorem processEvent_noteOff_cases (eng : TuningEngine) (ch : Fin 16) (ts : ℤ)
    (m : MidiMessage) (hch : m.getChannel = ch.val + 1)
    (hOn : m.isNoteOn = false) (hOff : m.isNoteOff = true) :
    processEvent eng ⟨ts, m⟩ =
      if 0 ≤ (eng.activeNotes ch m.getNoteNumber).originalNote then
        ({ eng with
            activeNotes := Function.update eng.activeNotes ch
              (Function.update (eng.activeNotes ch) m.getNoteNumber
                ActiveNote.default) },
         [ ⟨ts, .noteOff (ch.val + 1)
             (outputNoteByte (eng.activeNotes ch m.getNoteNumber).outputNote)
             m.getVelocity⟩ ])
      else (eng, [⟨ts, m⟩]) := by
  have hch16 := ch.isLt
  rw [processEvent]
  simp only [hch, hOn, hOff]
  rw [dif_neg (by push_cast; omega)]
  have hfin : ∀ (h : ((((ch.val + 1 : ℕ) : ℤ) - 1)).toNat < 16),
      (⟨((((ch.val + 1 : ℕ) : ℤ) - 1)).toNat, h⟩ : Fin 16) = ch := by
    intro h; apply Fin.ext; push_cast; omega
  simp only [hfin]
  simp

theorem processEvent_pitchBendRange (eng : TuningEngine) (ev : MidiEvent) :
    (processEvent eng ev).1.pitchBendRange = eng.pitchBendRange := by
  rw [processEvent]
  split_ifs <;> try rfl
  dsimp only
  split <;> rfl

theorem processBlock_nil (eng : TuningEngine) : processBlock eng [] = (eng, []) :=
  rfl

theorem processBlock_shift (l : List MidiEvent) (e : TuningEngine)
    (acc : List MidiEvent) :
    l.foldl
        (fun acc ev =>
          let step := processEvent acc.1 ev
          (step.1, acc.2 ++ step.2))
        (e, acc) =
      ((processBlock e l).1, acc ++ (processBlock e l).2) := by
  induction l generalizing e acc with
  | nil => simp [processBlock]
  | cons ev rest ih =>
      rw [processBlock, List.foldl_cons, List.foldl_cons, ih, ih]
      simp

theorem processBlock_cons (eng : TuningEngine) (ev : MidiEvent)
    (l : List MidiEvent) :
    processBlock eng (ev :: l) =
      ((processBlock (processEvent eng ev).1 l).1,
       (processEvent eng ev).2 ++ (processBlock (processEvent eng ev).1 l).2) := by
  rw [processBlock, List.foldl_cons, processBlock_shift]
  simp

theorem processBlock_pitchBendRange (eng : TuningEngine) (l : List MidiEvent) :
    (processBlock eng l).1.pitchBendRange = eng.pitchBendRange := by
  induction l generalizing eng with
  | nil => rfl
  | cons ev rest ih =>
      rw [processBlock_cons]
      exact (ih _).trans (processEvent_pitchBendRange eng ev)

end TuningEngine

/-- Claim C1: `calculatePitchBend` returns 8192 when the configured range
is non-positive and otherwise `clamp(truncate(8192 + (c / (range * 100)) *
8192), 0, 16383)`; as a Lean function it is pure and deterministic. -/
theorem calculatePitchBend_eq_computeBendSpec (r c : ℚ) :
    TuningEngine.calculatePitchBend r c = computeBendSpec r c := by
  rw [TuningEngine.calculatePitchBend, computeBendSpec]
  split_ifs with h
  · rfl
  · exact jlimit_eq_max_min 0 16383 _ (by norm_num)

/-- Claim C3: for a positive range, `calculatePitchBend` is monotone
non-decreasing in the cents argument and always lands in [0, 16383]. -/
theorem calculatePitchBend_mono_and_bounded (r c₁ c₂ : ℚ) (hr : 0 < r)
    (hc : c₁ ≤ c₂) :
    TuningEngine.calculatePitchBend r c₁ ≤ TuningEngine.calculatePitchBend r c₂ ∧
    0 ≤ TuningEngine.calculatePitchBend r c₁ ∧
    TuningEngine.calculatePitchBend r c₁ ≤ 16383 := by
  rw [TuningEngine.calculatePitchBend, TuningEngine.calculatePitchBend,
    if_neg (not_le.mpr hr), if_neg (not_le.mpr hr)]
  dsimp only
  refine ⟨?_, jlimit_mem _ (by norm_num)⟩
  apply jlimit_monotone (by norm_num)
  apply truncQ_le_truncQ
  gcongr

theorem calculatePitchBend_mono_and_bounded_witness :
    ((0 : ℚ) < 48 ∧ (0 : ℚ) ≤ 100) ∧
    (TuningEngine.calculatePitchBend 48 0 ≤ TuningEngine.calculatePitchBend 48 100 ∧
     0 ≤ TuningEngine.calculatePitchBend 48 0 ∧
     TuningEngine.calculatePitchBend 48 0 ≤ 16383) :=
  ⟨⟨by norm_num, by norm_num⟩,
   calculatePitchBend_mono_and_bounded 48 0 100 (by norm_num) (by norm_num)⟩

/-- Claim C8: `reset` empties every one of the 16 × 128 = 2048 slots and
is idempotent. -/
theorem reset_clears_all_slots_and_idempotent :
    (∀ (eng : TuningEngine) (ch : Fin 16) (note : Fin 128),
      eng.reset.activeNotes ch note = ActiveNote.default) ∧
    (∀ eng : TuningEngine, eng.reset.reset = eng.reset) ∧
    Fintype.card (Fin 16 × Fin 128) = 2048 :=
  ⟨fun _ _ _ => rfl, fun _ => rfl, by norm_num⟩

/-- Claim C7: the pitch-bend range starts at 48 and stays in [1, 96]
through any sequence of mutations, because every write path clamps. -/
theorem pitchBendRange_always_clamped :
    TuningEngine.init.pitchBendRange = 48 ∧
    (∀ (eng : TuningEngine) (s : ℚ),
      (eng.setPitchBendRange s).pitchBendRange = jlimit 1 96 s) ∧
    (∀ ops : List EngineOp,
      1 ≤ (runOps ops).pitchBendRange ∧ (runOps ops).pitchBendRange ≤ 96) := by
  refine ⟨rfl, fun _ _ => rfl, ?_⟩
  have hstep : ∀ (eng : TuningEngine) (op : EngineOp),
      1 ≤ eng.pitchBendRange ∧ eng.pitchBendRange ≤ 96 →
      1 ≤ (applyOp eng op).pitchBendRange ∧ (applyOp eng op).pitchBendRange ≤ 96 := by
    intro eng op h
    cases op with
    | setTuningTable cents => exact h
    | setPitchBendRange s =>
        simp only [applyOp, TuningEngine.setPitchBendRange]
        exact jlimit_mem s (by norm_num)
    | processBlock evs =>
        simp only [applyOp, TuningEngine.processBlock_pitchBendRange]
        exact h
    | reset => exact h
    | setStateInformation data =>
        simp only [applyOp, setStateInformation, TuningEngine.setPitchBendRange,
          TuningEngine.setTuningTable]
        exact jlimit_mem _ (by norm_num)
  have hall : ∀ (ops : List EngineOp) (eng : TuningEngine),
      1 ≤ eng.pitchBendRange ∧ eng.pitchBendRange ≤ 96 →
      1 ≤ (ops.foldl applyOp eng).pitchBendRange ∧
        (ops.foldl applyOp eng).pitchBendRange ≤ 96 := by
    intro ops
    induction ops with
    | nil => intro eng h; exact h
    | cons op rest ih =>
        intro eng h
        rw [List.foldl_cons]
        exact ih _ (hstep eng op h)
  intro ops
  exact hall ops TuningEngine.init (by norm_num [TuningEngine.init])

/-- Claim C9: the persisted state is the 128 table floats in note order
followed by the pitch-bend range, 129 4-byte words = 516 bytes, no header;
`setStateInformation` reads the same layout back (through the range
clamp, which is the identity on the invariant range). -/
theorem state_layout_and_roundtrip :
    (∀ eng : TuningEngine,
      getStateInformation eng =
        (List.ofFn fun i => eng.tuningTable i) ++ [eng.pitchBendRange] ∧
      (getStateInformation eng).length = 129 ∧ 129 * 4 = 516) ∧
    (∀ eng eng₂ : TuningEngine,
      (setStateInformation eng₂ (getStateInformation eng)).tuningTable =
        eng.tuningTable ∧
      (setStateInformation eng₂ (getStateInformation eng)).pitchBendRange =
        jlimit 1 96 eng.pitchBendRange ∧
      (1 ≤ eng.pitchBendRange → eng.pitchBendRange ≤ 96 →
        (setStateInformation eng₂ (getStateInformation eng)).pitchBendRange =
          eng.pitchBendRange)) := by
  constructor
  · intro eng
    refine ⟨rfl, ?_, by norm_num⟩
    rw [getStateInformation, List.length_append, List.length_ofFn]
    rfl
  · intro eng eng₂
    have hofLen : (List.ofFn fun i => eng.tuningTable i).length = 128 :=
      List.length_ofFn _
    have hgetD : ∀ i : Fin 128,
        (getStateInformation eng).getD i.val 0 = eng.tuningTable i := by
      intro i
      rw [getStateInformation,
        List.getD_append _ _ _ _ (by rw [hofLen]; exact i.isLt),
        List.getD_eq_getElem _ _ (by rw [hofLen]; exact i.isLt),
        List.getElem_ofFn]
    have hrange : (getStateInformation eng).getD 128 0 = eng.pitchBendRange := by
      rw [getStateInformation,
        List.getD_append_right _ _ _ _ (by rw [hofLen]), hofLen]
      rfl
    refine ⟨?_, ?_, ?_⟩
    · funext i
      simp only [setStateInformation, TuningEngine.setPitchBendRange,
        TuningEngine.setTuningTable]
      exact hgetD i
    · simp only [setStateInformation, TuningEngine.setPitchBendRange,
        TuningEngine.setTuningTable]
      rw [hrange]
    · intro h1 h96
      simp only [setStateInformation, TuningEngine.setPitchBendRange,
        TuningEngine.setTuningTable]
      rw [hrange, jlimit, if_neg (not_lt.mpr h1), if_neg (not_lt.mpr h96)]

theorem state_layout_and_roundtrip_witness :
    (1 ≤ TuningEngine.init.pitchBendRange ∧ TuningEngine.init.pitchBendRange ≤ 96) ∧
    (setStateInformation TuningEngine.init
        (getStateInformation TuningEngine.init)).pitchBendRange =
      TuningEngine.init.pitchBendRange :=
  ⟨⟨by norm_num [TuningEngine.init], by norm_num [TuningEngine.init]⟩,
   (state_layout_and_roundtrip.2 TuningEngine.init TuningEngine.init).2.2
     (by norm_num [TuningEngine.init]) (by norm_num [TuningEngine.init])⟩

/-- Claim C4: a note-off hitting an active slot emits exactly one
note-off — for the tracked output note, same channel, incoming velocity,
original timestamp — no pitch-bend event, and empties the slot. -/
theorem tracked_noteOff_emits_single_noteOff (eng : TuningEngine) (ch : Fin 16)
    (note vel out : Fin 128) (ts : ℤ)
    (hact : 0 ≤ (eng.activeNotes ch note).originalNote)
    (hout : (eng.activeNotes ch note).outputNote = (out : ℤ)) :
    (TuningEngine.processEvent eng ⟨ts, .noteOff (ch.val + 1) note vel⟩).2 =
      [⟨ts, .noteOff (ch.val + 1) out vel⟩] ∧
    (TuningEngine.processEvent eng
        ⟨ts, .noteOff (ch.val + 1) note vel⟩).1.activeNotes ch note =
      ActiveNote.default := by
  rw [TuningEngine.processEvent_noteOff_cases eng ch ts
    (.noteOff (ch.val + 1) note vel) rfl rfl rfl]
  dsimp only [MidiMessage.getNoteNumber, MidiMessage.getVelocity]
  rw [if_pos hact]
  refine ⟨?_, ?_⟩
  · rw [hout, TuningEngine.outputNoteByte_coe]
  · simp [Function.update_same]

theorem tracked_noteOff_emits_single_noteOff_witness :
    (0 ≤ (engTracked.activeNotes 0 60).originalNote ∧
     (engTracked.activeNotes 0 60).outputNote = ((60 : Fin 128) : ℤ)) ∧
    ((TuningEngine.processEvent engTracked ⟨5, .noteOff 1 60 0⟩).2 =
       [⟨5, .noteOff 1 60 0⟩] ∧
     (TuningEngine.processEvent engTracked ⟨5, .noteOff 1 60 0⟩).1.activeNotes
         0 60 = ActiveNote.default) :=
  ⟨⟨by simp [engTracked, TuningEngine.init], by simp [engTracked, TuningEngine.init]; decide⟩,
   tracked_noteOff_emits_single_noteOff engTracked 0 60 0 60 5
     (by simp [engTracked, TuningEngine.init])
     (by simp [engTracked, TuningEngine.init]; decide)⟩

/-- Claim C5: a note-off hitting an empty slot is forwarded unchanged and
leaves the engine state untouched. -/
theorem untracked_noteOff_passthrough (eng : TuningEngine) (ch : Fin 16)
    (note vel : Fin 128) (ts : ℤ)
    (hact : (eng.activeNotes ch note).originalNote < 0) :
    TuningEngine.processEvent eng ⟨ts, .noteOff (ch.val + 1) note vel⟩ =
      (eng, [⟨ts, .noteOff (ch.val + 1) note vel⟩]) := by
  rw [TuningEngine.processEvent_noteOff_cases eng ch ts
    (.noteOff (ch.val + 1) note vel) rfl rfl rfl]
  dsimp only [MidiMessage.getNoteNumber]
  rw [if_neg (not_le.mpr hact)]

theorem untracked_noteOff_passthrough_witness :
    (TuningEngine.init.activeNotes 1 72).originalNote < 0 ∧
    TuningEngine.processEvent TuningEngine.init ⟨3, .noteOff 2 72 0⟩ =
      (TuningEngine.init, [⟨3, .noteOff 2 72 0⟩]) :=
  ⟨by simp [TuningEngine.init, ActiveNote.default],
   untracked_noteOff_passthrough TuningEngine.init 1 72 0 3
     (by simp [TuningEngine.init, ActiveNote.default])⟩

/-- Claim C10: a note-on with velocity 0 is handled by the note-off path:
never a pitch-bend/note-on pair; with an active slot it becomes one
note-off for the tracked output note with velocity 0 and the slot is
cleared, otherwise it is forwarded unchanged. -/
theorem noteOn_velocity0_treated_as_noteOff (eng : TuningEngine) (ch : Fin 16)
    (note : Fin 128) (ts : ℤ) :
    (∀ out : Fin 128,
      0 ≤ (eng.activeNotes ch note).originalNote →
      (eng.activeNotes ch note).outputNote = (out : ℤ) →
      (TuningEngine.processEvent eng ⟨ts, .noteOn (ch.val + 1) note 0⟩).2 =
        [⟨ts, .noteOff (ch.val + 1) out 0⟩] ∧
      (TuningEngine.processEvent eng
          ⟨ts, .noteOn (ch.val + 1) note 0⟩).1.activeNotes ch note =
        ActiveNote.default) ∧
    ((eng.activeNotes ch note).originalNote < 0 →
      TuningEngine.processEvent eng ⟨ts, .noteOn (ch.val + 1) note 0⟩ =
        (eng, [⟨ts, .noteOn (ch.val + 1) note 0⟩])) := by
  constructor
  · intro out hact hout
    rw [TuningEngine.processEvent_noteOff_cases eng ch ts
      (.noteOn (ch.val + 1) note 0) rfl rfl rfl]
    dsimp only [MidiMessage.getNoteNumber, MidiMessage.getVelocity]
    rw [if_pos hact]
    refine ⟨?_, ?_⟩
    · rw [hout, TuningEngine.outputNoteByte_coe]
    · simp [Function.update_same]
  · intro hact
    rw [TuningEngine.processEvent_noteOff_cases eng ch ts
      (.noteOn (ch.val + 1) note 0) rfl rfl rfl]
    dsimp only [MidiMessage.getNoteNumber]
    rw [if_neg (not_le.mpr hact)]

theorem noteOn_velocity0_treated_as_noteOff_witness :
    (0 ≤ (engTracked.activeNotes 0 60).originalNote ∧
     (engTracked.activeNotes 0 60).outputNote = ((60 : Fin 128) : ℤ)) ∧
    ((TuningEngine.processEvent engTracked ⟨7, .noteOn 1 60 0⟩).2 =
       [⟨7, .noteOff 1 60 0⟩] ∧
     (TuningEngine.processEvent engTracked ⟨7, .noteOn 1 60 0⟩).1.activeNotes
         0 60 = ActiveNote.default) :=
  ⟨⟨by simp [engTracked, TuningEngine.init], by simp [engTracked, TuningEngine.init]; decide⟩,
   (noteOn_velocity0_treated_as_noteOff engTracked 0 60 7).1 60
     (by simp [engTracked, TuningEngine.init])
     (by simp [engTracked, TuningEngine.init]; decide)⟩

/-- Claim C2 counterexample: in the spec's "Ordering" scenario the emitted
pitch-bend value is 8362 (the code truncates 8362.666…), not the claimed
8363 (which would need rounding to nearest). -/
theorem ordering_scenario_bend_is_8362_not_8363 :
    (TuningEngine.processBlock engScenario
        [⟨0, .noteOn 1 ⟨60, by norm_num⟩ ⟨100, by norm_num⟩⟩]).2 =
      [⟨0, .pitchWheel 1 8362⟩, ⟨0, .noteOn 1 ⟨60, by norm_num⟩ ⟨100, by norm_num⟩⟩] ∧
    (8362 : ℕ) ≠ 8363 := by
  constructor
  · norm_num [TuningEngine.processBlock, TuningEngine.processEvent, engScenario,
      MidiMessage.getChannel, MidiMessage.isNoteOn, MidiMessage.getNoteNumber,
      MidiMessage.getVelocity, TuningEngine.calculatePitchBend, truncQ, jlimit]
    rfl
  · norm_num

/-- Claim C2 (amended): processing the note-on for (channel 1, note 60,
velocity 100) with table[60] = 100 cents and range 48 emits exactly two
events at the same timestamp, in order: a pitch-bend-change on channel 1
with value clamp(trunc(8192 + (100/4800)·8192)) = 8362, then the note-on
for channel 1, note 60, velocity 100. -/
theorem ordering_scenario_emits_bend_then_noteOn :
    (TuningEngine.processBlock engScenario
        [⟨0, .noteOn 1 ⟨60, by norm_num⟩ ⟨100, by norm_num⟩⟩]).2 =
      [⟨0, .pitchWheel 1 8362⟩, ⟨0, .noteOn 1 ⟨60, by norm_num⟩ ⟨100, by norm_num⟩⟩] := by
  norm_num [TuningEngine.processBlock, TuningEngine.processEvent, engScenario,
    MidiMessage.getChannel, MidiMessage.isNoteOn, MidiMessage.getNoteNumber,
    MidiMessage.getVelocity, TuningEngine.calculatePitchBend, truncQ, jlimit]
  rfl

/-- Claim C6: two back-to-back note-ons for the same (channel, note) each
emit a full pitch-bend + note-on pair, and the slot afterwards holds the
record written by the second note-on. -/
theorem retrigger_two_noteOns (eng : TuningEngine) (ch : Fin 16)
    (note v₁ v₂ : Fin 128) (ts₁ ts₂ : ℤ) (h₁ : v₁.val ≠ 0) (h₂ : v₂.val ≠ 0) :
    (TuningEngine.processBlock eng
        [⟨ts₁, .noteOn (ch.val + 1) note v₁⟩,
         ⟨ts₂, .noteOn (ch.val + 1) note v₂⟩]).2 =
      [ ⟨ts₁, .pitchWheel (ch.val + 1)
          (TuningEngine.calculatePitchBend eng.pitchBendRange
            (eng.tuningTable note)).toNat⟩
      , ⟨ts₁, .noteOn (ch.val + 1) note v₁⟩
      , ⟨ts₂, .pitchWheel (ch.val + 1)
          (TuningEngine.calculatePitchBend eng.pitchBendRange
            (eng.tuningTable note)).toNat⟩
      , ⟨ts₂, .noteOn (ch.val + 1) note v₂⟩ ] ∧
    (TuningEngine.processBlock eng
        [⟨ts₁, .noteOn (ch.val + 1) note v₁⟩,
         ⟨ts₂, .noteOn (ch.val + 1) note v₂⟩]).1.activeNotes ch note =
      { originalNote := (note : ℤ), outputNote := (note : ℤ)
      , pitchBend := TuningEngine.calculatePitchBend eng.pitchBendRange
          (eng.tuningTable note) } := by
  rw [TuningEngine.processBlock_cons,
    TuningEngine.processEvent_noteOn_eq eng ch note v₁ ts₁ h₁,
    TuningEngine.processBlock_cons]
  rw [TuningEngine.processEvent_noteOn_eq _ ch note v₂ ts₂ h₂,
    TuningEngine.processBlock_nil]
  constructor
  · simp
  · simp [Function.update_same]

theorem retrigger_two_noteOns_witness :
    ((⟨100, by norm_num⟩ : Fin 128).val ≠ 0 ∧
     (⟨90, by norm_num⟩ : Fin 128).val ≠ 0) ∧
    ((TuningEngine.processBlock TuningEngine.init
        [⟨0, .noteOn 1 ⟨60, by norm_num⟩ ⟨100, by norm_num⟩⟩,
         ⟨4, .noteOn 1 ⟨60, by norm_num⟩ ⟨90, by norm_num⟩⟩]).2 =
      [ ⟨0, .pitchWheel 1
          (TuningEngine.calculatePitchBend TuningEngine.init.pitchBendRange
            (TuningEngine.init.tuningTable ⟨60, by norm_num⟩)).toNat⟩
      , ⟨0, .noteOn 1 ⟨60, by norm_num⟩ ⟨100, by norm_num⟩⟩
      , ⟨4, .pitchWheel 1
          (TuningEngine.calculatePitchBend TuningEngine.init.pitchBendRange
            (TuningEngine.init.tuningTable ⟨60, by norm_num⟩)).toNat⟩
      , ⟨4, .noteOn 1 ⟨60, by norm_num⟩ ⟨90, by norm_num⟩⟩ ] ∧
    (TuningEngine.processBlock TuningEngine.init
        [⟨0, .noteOn 1 ⟨60, by norm_num⟩ ⟨100, by norm_num⟩⟩,
         ⟨4, .noteOn 1 ⟨60, by norm_num⟩ ⟨90, by norm_num⟩⟩]).1.activeNotes
        ⟨0, by norm_num⟩ ⟨60, by norm_num⟩ =
      { originalNote := ((⟨60, by norm_num⟩ : Fin 128) : ℤ)
      , outputNote := ((⟨60, by norm_num⟩ : Fin 128) : ℤ)
      , pitchBend := TuningEngine.calculatePitchBend TuningEngine.init.pitchBendRange
          (TuningEngine.init.tuningTable ⟨60, by norm_num⟩) }) :=
  ⟨⟨by norm_num, by norm_num⟩,
   retrigger_two_noteOns TuningEngine.init ⟨0, by norm_num⟩ ⟨60, by norm_num⟩
     ⟨100, by norm_num⟩ ⟨90, by norm_num⟩ 0 4 (by norm_num) (by norm_num)⟩
